import Mathlib

/-!
Verification of the Galactia conversation-summarization pipeline.

Shallow embedding of the pipeline components found in
`src/galactia/handlers/summary.py` and `src/galactia/cogs/ai.py`.
Python strings are modelled as `String` / `List Char` (Python `len`
counts Unicode code points, as does `List.length` on `toList`);
timestamps are modelled as `Int`; delegate-model (OpenAI) calls and the
`dateutil` / `tiktoken` libraries are external collaborators and are
modelled as explicit function parameters (`Option`-valued where the
call can fail).
-/

set_option maxRecDepth 4000

/-! ## TextFitter: `fit_for_discord` (src/galactia/handlers/summary.py) -/

/-- Index of the last occurrence of `c` in the list, as Python `str.rfind`
(`none` models the `-1` result). -/
def rfindChar (c : Char) : List Char → Option Nat
  | [] => none
  | x :: xs =>
    match rfindChar c xs with
    | some j => some (j + 1)
    | none => if x = c then some 0 else none

/-- Python `str.rstrip()`: drop trailing whitespace characters. -/
def rstripWs (l : List Char) : List Char :=
  ((l.reverse).dropWhile Char.isWhitespace).reverse

/-- The fixed truncation marker appended by `fit_for_discord`
(`"\n… (résumé tronqué)"`, 19 code points). -/
def truncSuffix : List Char := "\n… (résumé tronqué)".toList

/-- `MAX_DISCORD` from src/galactia/handlers/summary.py. -/
def MAX_DISCORD : Nat := 2000

/-- Model of `fit_for_discord(s, hard_limit, target)`
(src/galactia/handlers/summary.py, lines 14-31).  The `s is None`
branch is not modelled (the input type is a string).  The slice
`cut[: hard_limit - len(suffix)]` is modelled with `Nat` subtraction,
which agrees with Python whenever `hard_limit >= len(suffix)`; the
claims only concern the defaults `hard_limit = 2000`. -/
def fit_for_discord (s : List Char) (hard_limit target : Nat) : List Char :=
  if s.length ≤ hard_limit then s
  else
    let cut0 := s.take target
    let cut1 :=
      match rfindChar '\n' cut0 with
      | some nl => if target ≤ nl + 300 then cut0.take nl else cut0
      | none => cut0
    let cut2 := rstripWs cut1
    if hard_limit < cut2.length + truncSuffix.length then
      (cut2.take (hard_limit - truncSuffix.length)) ++ truncSuffix
    else
      cut2 ++ truncSuffix

theorem length_rstripWs_le (l : List Char) : (rstripWs l).length ≤ l.length := by
  unfold rstripWs
  rw [List.length_reverse]
  calc (l.reverse.dropWhile Char.isWhitespace).length
      ≤ l.reverse.length := (List.dropWhile_sublist _ ).length_le
    _ = l.length := List.length_reverse l

theorem truncSuffix_length : truncSuffix.length = 19 := by decide

/-- Claim C1: for every input string, `fit_for_discord` with the default
parameters (`hard_limit = 2000`, `target = 1900`) returns a string of
length at most 2000. -/
theorem fit_for_discord_length_le (s : List Char) :
    (fit_for_discord s 2000 1900).length ≤ 2000 := by
  unfold fit_for_discord
  by_cases h : s.length ≤ 2000
  · simp [h]
  · simp only [h, if_false]
    have h0 : (s.take 1900).length ≤ 1900 := by
      rw [List.length_take]; exact min_le_left _ _
    have h1 :
        (match rfindChar '\n' (s.take 1900) with
          | some nl => if 1900 ≤ nl + 300 then (s.take 1900).take nl else s.take 1900
          | none => s.take 1900).length ≤ 1900 := by
      rcases hr : rfindChar '\n' (s.take 1900) with _ | nl
      · simp only []; exact h0
      · simp only []
        split
        · calc ((s.take 1900).take nl).length
              ≤ (s.take 1900).length := by
                rw [List.length_take]; exact min_le_right _ _
            _ ≤ 1900 := h0
        · exact h0
    have h2 := le_trans (length_rstripWs_le _) h1
    generalize hc : rstripWs _ = c2 at h2 ⊢
    split
    · rw [List.length_append, truncSuffix_length]
      have h3 : (c2.take (2000 - truncSuffix.length)).length
          ≤ 2000 - truncSuffix.length := by
        rw [List.length_take]; exact min_le_left _ _
      rw [truncSuffix_length] at h3
      omega
    · rw [List.length_append, truncSuffix_length]
      omega

/-! ## Data model: candidate messages (Discord messages as seen by the pipeline) -/

/-- A channel message as used by `fetch_valid_messages` and
`generate_summary`: author id, author display name, creation time,
text content, bot flag, and the ids mentioned in the message. -/
structure Msg where
  author_id : Nat
  display_name : String
  created_at : Int
  content : String
  is_bot : Bool
  mentions : List Nat
deriving DecidableEq

/-- Sort key order used by `messages.sort(key=..., reverse=not sort_ascending)`:
ascending or descending by creation time.  Python sorting is stable;
`List.insertionSort` with a non-strict relation is the matching stable sort. -/
def createdOrder (asc : Bool) : Msg → Msg → Prop :=
  fun a b => if asc then a.created_at ≤ b.created_at else b.created_at ≤ a.created_at

instance (asc : Bool) : DecidableRel (createdOrder asc) := by
  intro a b; unfold createdOrder; infer_instance

instance (asc : Bool) : IsTotal Msg (createdOrder asc) := by
  constructor; intro a b; unfold createdOrder
  cases asc <;> simp <;> exact le_total _ _

instance (asc : Bool) : IsTrans Msg (createdOrder asc) := by
  constructor; intro a b c; unfold createdOrder
  cases asc <;> simp <;> omega

/-! ## MessageRetriever: `fetch_valid_messages` (src/galactia/handlers/summary.py) -/

/-- Model of the inner `is_author_allowed(author_display_name, author_id,
authors_list)` of `fetch_valid_messages`. -/
def is_author_allowed (display_name idStr : String) (authors_list : List String) : Bool :=
  if authors_list.isEmpty then true
  else
    let normalized := authors_list.map String.trim
    normalized.contains display_name.trim || normalized.contains idStr

/-- The filter applied to each raw message in `fetch_valid_messages`:
drop empty content, bot authors, messages mentioning the bot, and
(when an author list is given and non-empty — Python truthiness)
non-matching authors. -/
def message_passes (botUser : Nat) (authors : Option (List String)) (m : Msg) : Bool :=
  !(m.content == "") && !m.is_bot && !(m.mentions.contains botUser) &&
    (match authors with
     | none => true
     | some l => if l.isEmpty then true
                 else is_author_allowed m.display_name (toString m.author_id) l)

/-- Model of `fetch_valid_messages(bot, channel, start, end, limit, authors,
sort_ascending)` (src/galactia/handlers/summary.py, lines 46-86).
`hist` is the message sequence the external `channel.history(after=start,
before=end, ...)` call would yield for the window, in the gateway's
order; the `limit=` argument of that call is modelled by `List.take`.
In the source `raw_limit = limit if limit is not None else 1000` and the
history limit is `min(limit or raw_limit, raw_limit)`, which equals
`limit` when `limit` is not `None` and `1000` otherwise. -/
def fetch_valid_messages (botUser : Nat) (hist : List Msg) (limit : Option Nat)
    (authors : Option (List String)) (sort_ascending : Bool) : List Msg :=
  let fetchLimit := limit.getD 1000
  let raw := hist.take fetchLimit
  let kept := raw.filter (message_passes botUser authors)
  kept.insertionSort (createdOrder sort_ascending)

/-- Modelled from the spec claim C2 wording (refinement comparison only):
a raw fetch with the fixed upper bound 1000 within the window, then the
filter, then the per-flag sort, and finally truncation of the result to
`limit`. -/
def spec_fetch_messages (botUser : Nat) (hist : List Msg) (limit : Option Nat)
    (authors : Option (List String)) (sort_ascending : Bool) : List Msg :=
  let raw := hist.take 1000
  let kept := raw.filter (message_passes botUser authors)
  (kept.insertionSort (createdOrder sort_ascending)).take (limit.getD 1000)

/-- Example channel history for claim C2: the gateway yields a bot
message first, then a human message. -/
def msgBotC2 : Msg := ⟨2, "botty", 5, "hello", true, []⟩

def msgHumC2 : Msg := ⟨3, "carol", 3, "hi", false, []⟩

/-- Claim C2 counterexample: with `limit = 1`, the code raw-fetches only
one message (the bot message) and returns nothing, while the spec's
fixed-1000-fetch-filter-sort-truncate pipeline would return the human
message.  The raw fetch is bounded by `limit` itself, and there is no
truncation after filtering. -/
theorem fetch_differs_from_spec_fetch :
    fetch_valid_messages 9 [msgBotC2, msgHumC2] (some 1) none false = [] ∧
    spec_fetch_messages 9 [msgBotC2, msgHumC2] (some 1) none false = [msgHumC2] ∧
    fetch_valid_messages 9 [msgBotC2, msgHumC2] (some 1) none false ≠
      spec_fetch_messages 9 [msgBotC2, msgHumC2] (some 1) none false := by
  refine ⟨by decide, by decide, by decide⟩

/-- Claim C2 (amended): retrieval raw-fetches at most `limit` messages
(1000 only when `limit` is absent) within the window, then filters
(empty text, bot authors, bot mentions, author list), then sorts by
creation time per the ascending flag; there is no separate truncation
step, the output size being already bounded by the raw fetch bound. -/
theorem fetch_valid_messages_bounded_filtered_sorted :
    ∀ (botUser : Nat) (hist : List Msg) (limit : Option Nat)
      (authors : Option (List String)) (asc : Bool),
      (fetch_valid_messages botUser hist limit authors asc).length ≤ limit.getD 1000
      ∧ (∀ m, m ∈ fetch_valid_messages botUser hist limit authors asc →
          message_passes botUser authors m = true)
      ∧ List.Sorted (createdOrder asc) (fetch_valid_messages botUser hist limit authors asc) := by
  intro botUser hist limit authors asc
  refine ⟨?_, ?_, ?_⟩
  · unfold fetch_valid_messages
    rw [List.length_insertionSort]
    calc ((hist.take (limit.getD 1000)).filter (message_passes botUser authors)).length
        ≤ (hist.take (limit.getD 1000)).length := List.length_filter_le _ _
      _ ≤ limit.getD 1000 := by rw [List.length_take]; exact min_le_left _ _
  · intro m hm
    unfold fetch_valid_messages at hm
    rw [List.mem_insertionSort] at hm
    exact List.of_mem_filter hm
  · exact List.sorted_insertionSort _ _

/-- A plain human message used to exercise the filter conjunct of the
amended claim C2 theorem. -/
def msgWitC2 : Msg := ⟨4, "dave", 7, "yo", false, []⟩

/-- Witness for the amended claim C2 theorem at a concrete input. -/
theorem fetch_valid_messages_bfs_witness :
    message_passes 9 none msgWitC2 = true :=
  (fetch_valid_messages_bounded_filtered_sorted 9 [msgWitC2] none none true).2.1
    msgWitC2 (by decide)

/-! ## TokenBudgeter: prompt assembly inside `generate_summary`
(src/galactia/handlers/summary.py, lines 89-153) -/

/-- An apostrophe character (written via its code point). -/
def aposChar : Char := Char.ofNat 39

/-- The fixed instruction block of `generate_summary`, extended with the
focus instruction when a focus is given. -/
def instructionsBlock (focus : Option String) : List String :=
  ["Tu es Galactia, un assistant IA pour la guilde Les Galactiques.",
   "Tu dois générer un résumé clair des messages reçus.",
   "Ton résumé peut être mis en forme avec du markdown pour une meilleure lisibilité.",
   "⚠️ Le texte FINAL doit faire AU MAXIMUM 1200 caractères, mise en forme et espaces compris.",
   "N" ++ String.singleton aposChar ++
     "invente jamais de contenu. Résume seulement ce qui est présent."]
  ++ (match focus with
      | some f => ["Concentre-toi uniquement sur : " ++ f ++ "."]
      | none => [])

/-- The `base_prompt` constant of `generate_summary`. -/
def basePrompt : String := "Résume ces messages :\n"

/-- The `token_limit` constant of `generate_summary`. -/
def token_limit : Nat := 12000

/-- One transcript line, `f"[{created_at:%d/%m/%Y %H:%M}] {display_name} : {content}"`;
the `strftime` timestamp rendering is abstracted as the parameter `fmt`. -/
def lineOf (fmt : Int → String) (m : Msg) : String :=
  "[" ++ fmt m.created_at ++ "] " ++ m.display_name ++ " : " ++ m.content

/-- The chronologically-ascending line sequence built by
`generate_summary` after `messages.sort(key=lambda m: m.created_at)`. -/
def summary_lines (fmt : Int → String) (msgs : List Msg) : List String :=
  (msgs.insertionSort (createdOrder true)).map (lineOf fmt)

/-- The greedy line-selection loop of `generate_summary`: accumulate a
line while `total_tokens + tokens <= token_limit`, stop (`break`) at the
first line that would exceed the budget.  `cost` models the external
`tiktoken` estimator `estimate_token_count(line + "\n")`. -/
def selectLines (cost : String → Nat) (budget : Nat) : Nat → List String → List String
  | _, [] => []
  | total, l :: ls =>
    let t := cost (l ++ "\n")
    if budget < total + t then []
    else l :: selectLines cost budget (total + t) ls

/-- The running cost seed: tokens of the joined instruction block plus
tokens of the base prompt. -/
def initial_cost (cost : String → Nat) (focus : Option String) : Nat :=
  cost (String.intercalate " " (instructionsBlock focus)) + cost basePrompt

/-- The `selected_lines` list assembled by `generate_summary` before the
generation call. -/
def selected_lines (cost : String → Nat) (fmt : Int → String)
    (msgs : List Msg) (focus : Option String) : List String :=
  selectLines cost token_limit (initial_cost cost focus) (summary_lines fmt msgs)

/-- Outcome of `generate_summary` up to the external generation call:
either the early `"Aucun message pertinent à résumer."` return for an
empty transcript, or a generation call carrying the system instruction
text and the user content. -/
inductive GenOutcome where
  | noMessages : GenOutcome
  | genCall (system : String) (user : String) : GenOutcome
deriving DecidableEq

/-- The request `generate_summary` issues: `noMessages` when the
transcript is empty (Python `if not messages`), otherwise a generation
call whose user content is the base prompt followed by the
newline-joined selected lines. -/
def generate_request (cost : String → Nat) (fmt : Int → String)
    (msgs : List Msg) (focus : Option String) : GenOutcome :=
  if msgs.isEmpty then .noMessages
  else .genCall (String.intercalate " " (instructionsBlock focus))
        (basePrompt ++ String.intercalate "\n" (selected_lines cost fmt msgs focus))

theorem selectLines_eq_take (cost : String → Nat) (budget : Nat) :
    ∀ (ls : List String) (total : Nat),
      ∃ k, selectLines cost budget total ls = ls.take k := by
  intro ls
  induction ls with
  | nil => intro total; exact ⟨0, rfl⟩
  | cons l ls ih =>
    intro total
    unfold selectLines
    by_cases h : budget < total + cost (l ++ "\n")
    · exact ⟨0, by simp [h]⟩
    · obtain ⟨k, hk⟩ := ih (total + cost (l ++ "\n"))
      exact ⟨k + 1, by simp [h, hk]⟩

/-- Claim C3: for every transcript, token-cost estimator and focus, the
lines selected for the generation prompt form a contiguous prefix (an
initial `take`) of the chronologically-ascending line sequence: if a
line is excluded, every later line is excluded too. -/
theorem selected_lines_prefix_of_summary_lines :
    ∀ (cost : String → Nat) (fmt : Int → String) (msgs : List Msg) (focus : Option String),
      ∃ k, selected_lines cost fmt msgs focus = (summary_lines fmt msgs).take k := by
  intro cost fmt msgs focus
  exact selectLines_eq_take cost token_limit (summary_lines fmt msgs) _

/-- A one-message transcript for the claim C4 counterexample. -/
def msgC4 : Msg := ⟨1, "alice", 0, "salut", false, []⟩

/-- Claim C4 counterexample: with a (monotone, deterministic) cost
estimator under which even the first line exceeds the 12000-token
budget, `generate_summary` selects zero lines yet still issues the
generation call, with user content consisting of the base prompt and
empty message content — it does not yield the "nothing to summarize"
signal. -/
theorem generate_request_zero_budget_calls :
    selected_lines (fun _ => 20000) (fun t => toString t) [msgC4] none = [] ∧
    generate_request (fun _ => 20000) (fun t => toString t) [msgC4] none =
      .genCall (String.intercalate " " (instructionsBlock none)) basePrompt ∧
    generate_request (fun _ => 20000) (fun t => toString t) [msgC4] none ≠
      .noMessages := by
  refine ⟨by decide, by decide, by decide⟩

/-- Claim C4 (amended): an empty transcript yields the explicit
"nothing to summarize" signal and no generation call; but for every
non-empty transcript a generation call is issued regardless of the
token budget, even when zero message lines fit (in which case its
message content is empty). -/
theorem generate_request_empty_vs_nonempty :
    ∀ (cost : String → Nat) (fmt : Int → String) (msgs : List Msg) (focus : Option String),
      (msgs = [] → generate_request cost fmt msgs focus = .noMessages)
      ∧ (msgs ≠ [] → ∃ sys user, generate_request cost fmt msgs focus = .genCall sys user) := by
  intro cost fmt msgs focus
  constructor
  · intro h; subst h; rfl
  · intro h
    cases msgs with
    | nil => exact absurd rfl h
    | cons m ms => exact ⟨_, _, rfl⟩

/-- Witness for the amended claim C4 theorem at a concrete input. -/
theorem generate_request_empty_witness :
    generate_request (fun _ => 0) (fun t => toString t) [] none = GenOutcome.noMessages :=
  (generate_request_empty_vs_nonempty (fun _ => 0) (fun t => toString t) [] none).1 rfl

/-! ## PromptSanitizer: `sanitize_user_prompt_with_llm`
(src/galactia/cogs/ai.py, lines 33-94) -/

/-- The deterministic decision table applied to the delegate model's
(stripped) output `cleaned` in `sanitize_user_prompt_with_llm`.  The
`SUSPICIOUS` regex classifier is abstracted as the predicate `susp`;
the source applies it to the *original* input `text`, never to
`cleaned`.  Python's float comparison `len(cleaned) < 0.7 * len(text)`
coincides with the rational comparison `10*len(cleaned) < 7*len(text)`
for all realistic string lengths. -/
def sanitize_decision (susp : String → Bool) (text cleaned : String) : String :=
  if cleaned = "" then
    (if susp text then "" else text)
  else if 10 * cleaned.length < 7 * text.length && !(susp text) then text
  else cleaned

/-- Claim C5: the sanitizer returns the empty string when the delegate
empties a suspicious input; the original text when the delegate empties
a non-suspicious input; the original text on an over-aggressive edit
(result shorter than 70% of the input) of a non-suspicious input; and
the delegate's output otherwise — the suspicious classifier always
being applied to the original input. -/
theorem sanitize_decision_table :
    ∀ (susp : String → Bool) (text cleaned : String),
      (cleaned = "" → susp text = true → sanitize_decision susp text cleaned = "")
      ∧ (cleaned = "" → susp text = false → sanitize_decision susp text cleaned = text)
      ∧ (10 * cleaned.length < 7 * text.length → susp text = false →
          sanitize_decision susp text cleaned = text)
      ∧ (cleaned ≠ "" → ¬(10 * cleaned.length < 7 * text.length ∧ susp text = false) →
          sanitize_decision susp text cleaned = cleaned) := by
  intro susp text cleaned
  refine ⟨?_, ?_, ?_, ?_⟩
  · intro h hs; simp [sanitize_decision, h, hs]
  · intro h hs; simp [sanitize_decision, h, hs]
  · intro hlen hs
    by_cases h : cleaned = ""
    · simp [sanitize_decision, h, hs]
    · simp [sanitize_decision, h, hs, hlen]
  · intro h hns
    rcases Decidable.not_and_iff_or_not.mp hns with h2 | h2
    · simp only [sanitize_decision, if_neg h]
      rw [if_neg]
      simp only [Bool.and_eq_true, decide_eq_true_eq, Bool.not_eq_true']
      intro hc; exact absurd hc.1 h2
    · have hs : susp text = true := by
        cases hb : susp text
        · exact absurd hb h2
        · rfl
      simp [sanitize_decision, h, hs]

/-- Witness for the claim C5 theorem: a suspicious input fully emptied
by the delegate is blocked (empty result). -/
theorem sanitize_decision_table_witness :
    sanitize_decision (fun t => t == "jailbreak now") "jailbreak now" "" = "" :=
  (sanitize_decision_table (fun t => t == "jailbreak now") "jailbreak now" "").1
    rfl (by decide)

/-! ## TimeRangeResolver: `parse_time_limit_to_datetime_range`
(src/galactia/cogs/ai.py, lines 120-168) -/

/-- `listStartsWith needle hay` is true when `hay` begins with `needle`
(Python `str.startswith`). -/
def listStartsWith : List Char → List Char → Bool
  | [], _ => true
  | _ :: _, [] => false
  | a :: as, b :: bs => a == b && listStartsWith as bs

/-- `strContains needle hay` is true when `needle` occurs as a
contiguous substring of `hay` (Python `needle in hay`). -/
def strContains (needle : List Char) : List Char → Bool
  | [] => listStartsWith needle []
  | h :: t => listStartsWith needle (h :: t) || strContains needle t

/-- The `has_explicit_range` lexical test of
`parse_time_limit_to_datetime_range`: the lower-cased phrase contains
"jusqu", " à ", "entre" or "et ". -/
def has_explicit_range (phrase : String) : Bool :=
  let ts := (phrase.toList).map Char.toLower
  strContains "jusqu".toList ts || strContains " à ".toList ts ||
    strContains "entre".toList ts || strContains "et ".toList ts

/-- The start-only marker test of `parse_time_limit_to_datetime_range`:
the lower-cased phrase contains "depuis" or "à partir de". -/
def has_start_marker (phrase : String) : Bool :=
  let ts := (phrase.toList).map Char.toLower
  strContains "depuis".toList ts || strContains "à partir de".toList ts

/-- The `has_only_start` condition: a start-only marker without any
explicit-range marker. -/
def has_only_start (phrase : String) : Bool :=
  has_start_marker phrase && !has_explicit_range phrase

/-- `timedelta(days=1)` in seconds. -/
def oneDay : Int := 86400

/-- Python `raw.split(",")`: split at every comma, keeping empty parts. -/
def splitComma (acc : List Char) : List Char → List (List Char)
  | [] => [acc.reverse]
  | c :: rest =>
    if c = ',' then acc.reverse :: splitComma [] rest
    else splitComma (c :: acc) rest

/-- Python `s.strip()` on a character list. -/
def trimChars (l : List Char) : List Char :=
  rstripWs (l.dropWhile Char.isWhitespace)

/-- The body of `parse_time_limit_to_datetime_range` for a non-empty
phrase.  `delegateRaw` is the (stripped) delegate-model response
(`none` models a raised exception in the call); `parseDate` models
`dateutil.parser.parse` composed with the timezone localization
(`none` models a parsing exception).  Any failure falls back to
`(now - timedelta(days=1), now)`; on success the open-range correction
forces `end = now` when `has_only_start` holds. -/
def parse_core (now : Int) (phrase : String) (delegateRaw : Option String)
    (parseDate : String → Option Int) : Int × Int :=
  match delegateRaw with
  | none => (now - oneDay, now)
  | some raw =>
    match (splitComma [] raw.toList).map (fun l => String.mk (trimChars l)) with
    | [start_str, end_str] =>
      match parseDate start_str, parseDate end_str with
      | some s, some e =>
        if has_only_start phrase then (s, now) else (s, e)
      | _, _ => (now - oneDay, now)
    | _ => (now - oneDay, now)

/-- Model of `parse_time_limit_to_datetime_range(time_limit_str)`
(src/galactia/cogs/ai.py, lines 120-168).  The reference time `now`
(`get_local_now()`) is passed explicitly.  A falsy (empty) phrase
yields `(None, now)`. -/
def parse_time_limit_to_datetime_range (now : Int) (phrase : String)
    (delegateRaw : Option String) (parseDate : String → Option Int) :
    Option Int × Int :=
  if phrase = "" then (none, now)
  else
    let p := parse_core now phrase delegateRaw parseDate
    (some p.1, p.2)

/-- Claim C6: for every non-empty phrase that lexically contains a
start-only marker ("depuis" / "à partir de") and no explicit-range
marker ("jusqu", " à ", "entre", "et "), the resolved window's end
equals the reference time `now`, whatever the delegate returned. -/
theorem parse_time_limit_open_range_end_now :
    ∀ (now : Int) (phrase : String) (delegateRaw : Option String)
      (parseDate : String → Option Int),
      phrase ≠ "" →
      has_start_marker phrase = true →
      has_explicit_range phrase = false →
      (parse_time_limit_to_datetime_range now phrase delegateRaw parseDate).2 = now := by
  intro now phrase delegateRaw parseDate hne hs hx
  have honly : has_only_start phrase = true := by
    unfold has_only_start; rw [hs, hx]; rfl
  unfold parse_time_limit_to_datetime_range
  rw [if_neg hne]
  unfold parse_core
  rcases delegateRaw with _ | raw
  · rfl
  · simp only []
    rcases hp : (splitComma [] raw.toList).map (fun l => String.mk (trimChars l)) with
      _ | ⟨a, _ | ⟨b, _ | _⟩⟩ <;>
      simp only []
    rcases parseDate a with _ | s <;> rcases parseDate b with _ | e <;> simp only []
    rw [honly]
    rfl

/-- Witness for the claim C6 theorem: the phrase "depuis hier" with a
failing delegate still resolves with `end = now`. -/
theorem parse_time_limit_open_range_witness :
    (parse_time_limit_to_datetime_range 0 "depuis hier" none (fun _ => none)).2 = 0 :=
  parse_time_limit_open_range_end_now 0 "depuis hier" none (fun _ => none)
    (by decide) (by decide) (by decide)

/-! ## `handle_time_range` (src/galactia/cogs/ai.py, lines 242-292) -/

/-- Python truthiness of `intent.get("time_limit")`: present and
non-empty. -/
def truthyStr : Option String → Bool
  | none => false
  | some s => s ≠ ""

/-- Notice recorded when the start date is clamped to the minimum. -/
def notice_min_date : String :=
  "⚠️ La date de début a été ajustée au 15/10/2024 (limite minimale)."

/-- Notice recorded when no time limit was given (last-24h fallback). -/
def notice_no_time : String :=
  "ℹ️ Aucun intervalle de temps précisé → résumé sur les dernières 24h."

/-- Notice recorded when the requested count is clamped to 500. -/
def notice_count_clamp : String :=
  "⚠️ Le nombre de messages demandé a été réduit à 500 (maximum autorisé)."

/-- Notice recorded when a time limit is given but no count limit
(500-message fallback). -/
def notice_no_count_with_time : String :=
  "ℹ️ Aucun nombre de messages précisé → récupération de 500 messages max dans la plage de temps."

/-- Notice recorded when neither a time limit nor a count limit is
given (last-100-messages fallback). -/
def notice_no_count_no_time : String :=
  "ℹ️ Aucun nombre de messages ni plage de temps précisé → résumé sur les 100 derniers messages."

/-- The count-limit fallback branch (`count_limit` falsy): 500 messages
when a time limit was given, else 100 — each with its notice. -/
def default_count_branch (time_limit : Option String) : Int × List String :=
  if truthyStr time_limit then (500, [notice_no_count_with_time])
  else (100, [notice_no_count_no_time])


/-- The time-limit half of `handle_time_range`: `(start, end, notices)`.
A truthy `time_limit` goes through the resolver and the minimum-date
clamp (`start < min_date` raises `start` to `min_date` and records a
notice); a falsy one falls back to the last 24 hours with a notice. -/
def time_branch (now minDate : Int) (delegateRaw : Option String)
    (parseDate : String → Option Int) : Option String → Int × Int × List String
  | none => (now - oneDay, now, [notice_no_time])
  | some phrase =>
    if phrase = "" then (now - oneDay, now, [notice_no_time])
    else
      let p := parse_core now phrase delegateRaw parseDate
      if p.1 < minDate then (minDate, p.2, [notice_min_date])
      else (p.1, p.2, [])

/-- The count-limit half of `handle_time_range`: `(limit, notices)`.
`int(intent["count_limit"])` is the identity on the integer field;
Python truthiness sends `count_limit = 0` (and `None`) to the fallback
branch; a truthy count is clamped from above at 500 (with a notice
when it exceeded 500). -/
def count_branch (time_limit : Option String) : Option Int → Int × List String
  | none => default_count_branch time_limit
  | some c =>
    if c = 0 then default_count_branch time_limit
    else (min c 500, if 500 < c then [notice_count_clamp] else [])

/-- Model of `handle_time_range(intent)` (src/galactia/cogs/ai.py,
lines 242-292), returning `(start, end, limit, fallback_notices)`.
`now` models `get_local_now()` and `minDate` the fixed
`datetime(2024, 10, 15)` floor; `delegateRaw`/`parseDate` are threaded
to the time resolver. -/
def handle_time_range (now minDate : Int) (time_limit : Option String)
    (count_limit : Option Int) (delegateRaw : Option String)
    (parseDate : String → Option Int) : Int × Int × Int × List String :=
  ((time_branch now minDate delegateRaw parseDate time_limit).1,
   (time_branch now minDate delegateRaw parseDate time_limit).2.1,
   (count_branch time_limit count_limit).1,
   (time_branch now minDate delegateRaw parseDate time_limit).2.2
     ++ (count_branch time_limit count_limit).2)

/-- Concrete date parser for the claim C7 counterexample. -/
def pd_cex : String → Option Int :=
  fun s => if s = "a" then some 100 else if s = "b" then some 200 else none

/-- Claim C7 counterexample: a delegate window that lies entirely
before the minimum date (start 100, end 200, both below minDate
500000) is clamped to `start = minDate`, leaving `start > end`: the
resolver does not enforce `start <= end`. -/
theorem handle_time_range_start_gt_end_cex :
    (handle_time_range 1000000 500000 (some "x") none (some "a, b") pd_cex).2.1
      < (handle_time_range 1000000 500000 (some "x") none (some "a, b") pd_cex).1 ∧
    (handle_time_range 1000000 500000 (some "x") none (some "a, b") pd_cex).1 = 500000 ∧
    (handle_time_range 1000000 500000 (some "x") none (some "a, b") pd_cex).2.1 = 200 := by
  refine ⟨by decide, by decide, by decide⟩

/-- Claim C7 (amended): `start <= end` holds for every resolved window
provided the window produced by the time resolver (after the
open-range correction) is itself ordered and its end is not before the
minimum date; the code does not enforce ordering itself, and the
minimum-date clamp can push `start` above `end` when the resolved
window ends before the minimum date. -/
theorem handle_time_range_start_le_end :
    ∀ (now minDate : Int) (time_limit : Option String) (count_limit : Option Int)
      (delegateRaw : Option String) (parseDate : String → Option Int),
      (∀ phrase, time_limit = some phrase → phrase ≠ "" →
        (parse_core now phrase delegateRaw parseDate).1
            ≤ (parse_core now phrase delegateRaw parseDate).2
        ∧ minDate ≤ (parse_core now phrase delegateRaw parseDate).2) →
      (handle_time_range now minDate time_limit count_limit delegateRaw parseDate).1
        ≤ (handle_time_range now minDate time_limit count_limit delegateRaw parseDate).2.1 := by
  intro now minDate time_limit count_limit delegateRaw parseDate hp
  show (time_branch now minDate delegateRaw parseDate time_limit).1
    ≤ (time_branch now minDate delegateRaw parseDate time_limit).2.1
  rcases time_limit with _ | phrase
  · simp only [time_branch]
    show now - oneDay ≤ now
    simp only [oneDay]; omega
  · by_cases he : phrase = ""
    · simp only [time_branch, if_pos he]
      show now - oneDay ≤ now
      simp only [oneDay]; omega
    · simp only [time_branch, if_neg he]
      obtain ⟨h1, h2⟩ := hp phrase rfl he
      by_cases hc : (parse_core now phrase delegateRaw parseDate).1 < minDate
      · rw [if_pos hc]; exact h2
      · rw [if_neg hc]; exact h1

/-- Witness for the amended claim C7 theorem: a failing delegate on the
phrase "y" yields the 24h fallback window, clamped to `minDate = -1`,
with `start <= end`. -/
theorem handle_time_range_start_le_end_witness :
    (handle_time_range 0 (-1) (some "y") none none (fun _ => none)).1
      ≤ (handle_time_range 0 (-1) (some "y") none none (fun _ => none)).2.1 :=
  handle_time_range_start_le_end 0 (-1) (some "y") none none (fun _ => none)
    (by intro phrase h hne
        injection h with h2
        subst h2
        exact ⟨by decide, by decide⟩)

/-- Claim C8 counterexample: a negative `count_limit` is truthy in
Python, is not clamped from below, and becomes the resolved limit
unchanged: `count_limit = -5` yields `limit = -5`, outside `[1, 500]`. -/
theorem handle_time_range_negative_limit_cex :
    (handle_time_range 1000 0 none (some (-5)) none (fun _ => none)).2.2.1 = -5 ∧
    (handle_time_range 1000 0 none (some (-5)) none (fun _ => none)).2.2.1 < 1 := by
  refine ⟨by decide, by decide⟩

/-- Claim C8 (amended): for every Intent whose `count_limit` is absent,
zero, or positive, the resolved limit lies in `[1, 500]`; a negative
`count_limit` however passes through unclamped (the code only clamps
from above, at 500). -/
theorem handle_time_range_limit_range :
    ∀ (now minDate : Int) (time_limit : Option String) (count_limit : Option Int)
      (delegateRaw : Option String) (parseDate : String → Option Int),
      (∀ c, count_limit = some c → 0 ≤ c) →
      1 ≤ (handle_time_range now minDate time_limit count_limit delegateRaw parseDate).2.2.1
      ∧ (handle_time_range now minDate time_limit count_limit delegateRaw parseDate).2.2.1
          ≤ 500 := by
  intro now minDate time_limit count_limit delegateRaw parseDate hc
  show 1 ≤ (count_branch time_limit count_limit).1
    ∧ (count_branch time_limit count_limit).1 ≤ 500
  rcases count_limit with _ | c
  · simp only [count_branch]
    unfold default_count_branch
    by_cases ht : truthyStr time_limit = true
    · rw [if_pos ht]; exact ⟨by decide, by decide⟩
    · rw [if_neg ht]; exact ⟨by decide, by decide⟩
  · have hc0 : 0 ≤ c := hc c rfl
    simp only [count_branch]
    by_cases hz : c = 0
    · rw [if_pos hz]
      unfold default_count_branch
      by_cases ht : truthyStr time_limit = true
      · rw [if_pos ht]; exact ⟨by decide, by decide⟩
      · rw [if_neg ht]; exact ⟨by decide, by decide⟩
    · rw [if_neg hz]
      exact ⟨le_min (by omega) (by omega), min_le_right _ _⟩

/-- Witness for the amended claim C8 theorem: `count_limit = 7` yields
a limit within `[1, 500]`. -/
theorem handle_time_range_limit_range_witness :
    1 ≤ (handle_time_range 0 0 none (some 7) none (fun _ => none)).2.2.1
    ∧ (handle_time_range 0 0 none (some 7) none (fun _ => none)).2.2.1 ≤ 500 :=
  handle_time_range_limit_range 0 0 none (some 7) none (fun _ => none)
    (by intro c h; injection h with h2; omega)

/-- Claim C10: for every Intent carrying a non-empty `time_limit` and
no `count_limit`, the resolved limit defaults to 500 and exactly one
notice about the missing count limit appears in the fallback notices. -/
theorem handle_time_range_default_500_notice :
    ∀ (now minDate : Int) (phrase : String) (delegateRaw : Option String)
      (parseDate : String → Option Int),
      phrase ≠ "" →
      (handle_time_range now minDate (some phrase) none delegateRaw parseDate).2.2.1 = 500
      ∧ ((handle_time_range now minDate (some phrase) none delegateRaw parseDate).2.2.2).count
          notice_no_count_with_time = 1 := by
  intro now minDate phrase delegateRaw parseDate hne
  have ht : truthyStr (some phrase) = true := by
    unfold truthyStr; exact decide_eq_true hne
  have hcb : count_branch (some phrase) none = (500, [notice_no_count_with_time]) := by
    simp only [count_branch]
    unfold default_count_branch
    rw [if_pos ht]
  have htb : (time_branch now minDate delegateRaw parseDate (some phrase)).2.2 = []
      ∨ (time_branch now minDate delegateRaw parseDate (some phrase)).2.2
          = [notice_min_date] := by
    simp only [time_branch, if_neg hne]
    by_cases hc : (parse_core now phrase delegateRaw parseDate).1 < minDate
    · right; rw [if_pos hc]
    · left; rw [if_neg hc]
  constructor
  · show (count_branch (some phrase) none).1 = 500
    rw [hcb]
  · show ((time_branch now minDate delegateRaw parseDate (some phrase)).2.2
        ++ (count_branch (some phrase) none).2).count notice_no_count_with_time = 1
    rw [hcb]
    rcases htb with h | h <;> rw [h]
    · simp [List.count_cons]
    · rw [List.count_append]
      simp [List.count_cons, notice_min_date, notice_no_count_with_time]

/-- Witness for the claim C10 theorem at a concrete input. -/
theorem handle_time_range_default_500_notice_witness :
    (handle_time_range 0 0 (some "hier") none none (fun _ => none)).2.2.1 = 500
    ∧ ((handle_time_range 0 0 (some "hier") none none (fun _ => none)).2.2.2).count
        notice_no_count_with_time = 1 :=
  handle_time_range_default_500_notice 0 0 "hier" none (fun _ => none) (by decide)

/-! ## AuthorResolver: `resolve_llm_authors_to_ids` and `_norm_person_name`
(src/galactia/cogs/ai.py, lines 171-205) -/

/-- A right single quotation mark (U+2019). -/
def rsquoChar : Char := Char.ofNat 8217

/-- A backtick character. -/
def backtickChar : Char := Char.ofNat 96

/-- A double-quote character. -/
def dquoteChar : Char := Char.ofNat 34

/-- The character set of the `lstrip` call in `_norm_person_name`. -/
def lstripSet : List Char := ['@', '#', '<', '>', aposChar, dquoteChar, backtickChar, ' ']

/-- The character set of the `rstrip` call in `_norm_person_name`. -/
def rstripSet : List Char := ['>', aposChar, dquoteChar, backtickChar, ' ']

/-- The anchored, case-insensitive contraction removal
`re.sub(r"^(d['’]|l['’])", "", s)`. -/
def stripContraction (l : List Char) : List Char :=
  match l with
  | a :: b :: rest =>
    if (a == 'd' || a == 'D' || a == 'l' || a == 'L')
        && (b == aposChar || b == rsquoChar) then rest
    else l
  | _ => l

/-- Per-character ASCII lower-casing of a string (Python `str.lower`). -/
def lowerString (s : String) : String :=
  String.mk (s.toList.map Char.toLower)

/-- Model of `_norm_person_name(s)` (src/galactia/cogs/ai.py,
lines 171-176): strip whitespace, drop a leading French contraction,
strip mention/punctuation characters from both ends, strip whitespace
again. -/
def norm_person_name (s : String) : String :=
  let l0 := trimChars s.toList
  let l1 := stripContraction l0
  let l2 := l1.dropWhile (fun c => lstripSet.contains c)
  let l3 := ((l2.reverse).dropWhile (fun c => rstripSet.contains c)).reverse
  String.mk (trimChars l3)

/-- A member roster entry (`channel.members`): id, display name,
optional global name, username, bot flag. -/
structure Member where
  id : Nat
  display_name : String
  global_name : Option String
  username : String
  is_bot : Bool
deriving DecidableEq

/-- `dict.setdefault`: insert the pair only when the key is absent
(first writer wins, insertion order preserved). -/
def setdefaultKV (cs : List (String × String)) (k v : String) : List (String × String) :=
  if cs.any (fun kv => kv.1 == k) then cs else cs ++ [(k, v)]

/-- `filter(None, [display_name, global_name, name])`: the truthy
(non-`None`, non-empty) candidate keys of one member. -/
def member_keys (m : Member) : List String :=
  (([some m.display_name, m.global_name, some m.username]).filterMap id).filter
    (fun s => s ≠ "")

/-- Add a (non-bot) member's lower-cased keys to the candidate map. -/
def add_member (cs : List (String × String)) (m : Member) : List (String × String) :=
  if m.is_bot then cs
  else (member_keys m).foldl (fun acc k => setdefaultKV acc (lowerString k) (toString m.id)) cs

/-- The `candidates` dictionary of `resolve_llm_authors_to_ids`,
keyed by lower-cased display/global/user names, in insertion order. -/
def build_candidates (members : List Member) : List (String × String) :=
  members.foldl add_member []

/-- One iteration of the name loop of `resolve_llm_authors_to_ids`:
exact lower-cased key match wins (skipping the bot's own id);
otherwise all candidate keys starting with the normalized name are
collected and the match is accepted only when exactly one candidate
remains (and is not the bot). -/
def resolveOne (cs : List (String × String)) (botIdStr : String) (raw : String) : List String :=
  let key := lowerString (norm_person_name raw)
  match cs.lookup key with
  | some mid => if mid ≠ botIdStr then [mid] else []
  | none =>
    match (cs.filter (fun kv => listStartsWith key.toList kv.1.toList)).map
        (fun kv => kv.2) with
    | [h] => if h ≠ botIdStr then [h] else []
    | _ => []

/-- `list(dict.fromkeys(resolved))`: deduplicate keeping the first
occurrence of each element. -/
def dedupAux (seen : List String) : List String → List String
  | [] => []
  | x :: xs => if seen.contains x then dedupAux seen xs else x :: dedupAux (x :: seen) xs

/-- Model of `resolve_llm_authors_to_ids(names, channel, bot_id)`
(src/galactia/cogs/ai.py, lines 179-205).  A falsy (empty) name list
resolves to `None`; the final `resolved or None` turns an empty result
into `None`. -/
def resolve_llm_authors_to_ids (names : List String) (members : List Member)
    (bot_id : Nat) : Option (List String) :=
  if names.isEmpty then none
  else
    let cs := build_candidates members
    let resolved :=
      names.foldl (fun acc raw => acc ++ resolveOne cs (toString bot_id) raw) []
    let deduped := dedupAux [] resolved
    if deduped.isEmpty then none else some deduped

/-- The roster of the spec's AuthorResolver example. -/
def exampleRoster : List Member :=
  [⟨1, "Elsia", none, "Elsia", false⟩, ⟨2, "Elsirion", none, "Elsirion", false⟩]

/-- Claim C9: author resolution never returns an empty collection
(empty results become `None`); an exact lower-cased key match takes
precedence (returned directly, without consulting prefix candidates);
and on the example roster `{"Elsia": 1, "Elsirion": 2}` the name
"Elsia" resolves exactly to `{1}` while the ambiguous "Els" resolves
to `None`. -/
theorem resolve_llm_authors_spec :
    (∀ (names : List String) (members : List Member) (bot_id : Nat),
        resolve_llm_authors_to_ids names members bot_id ≠ some [])
    ∧ (∀ (cs : List (String × String)) (botIdStr raw mid : String),
        cs.lookup (lowerString (norm_person_name raw)) = some mid →
        mid ≠ botIdStr →
        resolveOne cs botIdStr raw = [mid])
    ∧ resolve_llm_authors_to_ids ["Elsia"] exampleRoster 99 = some ["1"]
    ∧ resolve_llm_authors_to_ids ["Els"] exampleRoster 99 = none := by
  refine ⟨?_, ?_, by decide, by decide⟩
  · intro names members bot_id
    simp only [resolve_llm_authors_to_ids]
    by_cases h1 : names.isEmpty = true
    · rw [if_pos h1]; simp
    · rw [if_neg h1]
      by_cases h2 : (dedupAux []
          (names.foldl
            (fun acc raw => acc ++ resolveOne (build_candidates members) (toString bot_id) raw)
            [])).isEmpty = true
      · rw [if_pos h2]; simp
      · rw [if_neg h2]
        intro hq
        rw [Option.some.injEq] at hq
        rw [hq] at h2
        exact h2 rfl
  · intro cs botIdStr raw mid hl hne
    simp only [resolveOne]
    rw [hl]
    simp only []
    rw [if_pos hne]

/-- Witness for the claim C9 theorem: the exact-match conjunct at the
example roster. -/
theorem resolve_llm_authors_spec_witness :
    resolveOne (build_candidates exampleRoster) "99" "Elsia" = ["1"] :=
  resolve_llm_authors_spec.2.1 (build_candidates exampleRoster) "99" "Elsia" "1"
    (by decide) (by decide)
